import Mathlib

/-!
Verification development for the youtube_summarizer transcript-acquisition
pipeline (src/utils/transcript_downloader.py and src/utils/url_processor.py).

The Python code is shallowly embedded: pure string manipulation becomes Lean
functions on String / List Char, the parsed HTML surface (BeautifulSoup) is
abstracted as an HtmlDoc structure holding the element lists the code iterates
over, and the network is an explicit environment of optional responses.

Modelling notes on Python library primitives (all used only on ASCII data in
this development):
* str.strip / str.lower strip and lower Unicode in Python; here pyStrip and
  pyLower handle the ASCII whitespace and letters that actually occur.
* re patterns \d and the WEBVTT / timestamp regexes are modelled over ASCII
  digits.
* urllib.parse.urljoin / urlparse / parse_qs are modelled for the common URL
  shapes the program handles; percent-decoding, plus-decoding, the params
  (semicolon) component and dot-segment normalisation are not modelled, as no
  input in this development contains them and they do not affect the claims.
-/

namespace YoutubeSummarizer

/-- Boolean test that the first list is a prefix of the second
(models str.startswith at the character-list level). -/
def isPrefList : List Char → List Char → Bool
  | [], _ => true
  | _ :: _, [] => false
  | a :: as, b :: bs => a == b && isPrefList as bs

/-- Boolean substring occurrence test on character lists: does needle occur
contiguously inside hay?  Models the Python `in` operator on str
(the empty needle occurs in every string). -/
def listContains (needle : List Char) : List Char → Bool
  | [] => needle.isEmpty
  | c :: rest => isPrefList needle (c :: rest) || listContains needle rest

/-- Models the Python expression `needle in hay` for strings. -/
def pyContains (hay needle : String) : Bool :=
  listContains needle.toList hay.toList

/-- Models Python str.strip(): remove leading and trailing whitespace. -/
def pyStrip (s : String) : String :=
  String.mk (((s.toList.dropWhile Char.isWhitespace).reverse.dropWhile
    Char.isWhitespace).reverse)

/-- Models Python str.lower() (ASCII letters). -/
def pyLower (s : String) : String :=
  String.mk (s.toList.map Char.toLower)

/-- Models Python str.startswith for a literal. -/
def pyStartsWith (s p : String) : Bool :=
  isPrefList p.toList s.toList

/-- Models Python str.endswith for a literal. -/
def pyEndsWith (s p : String) : Bool :=
  isPrefList p.toList.reverse s.toList.reverse

/-- Models Python slicing s[:n] (first n code points). -/
def pyTake (n : Nat) (s : String) : String :=
  String.mk (s.toList.take n)

/-- Models Python str.split(sep) for a single-character separator, at the
character-list level: always returns at least one (possibly empty) segment,
and adjacent separators yield empty segments, exactly as in Python. -/
def splitChar (sep : Char) : List Char → List (List Char)
  | [] => [[]]
  | c :: cs =>
    match splitChar sep cs with
    | [] => [[]]
    | h :: t => if c == sep then [] :: h :: t else (c :: h) :: t

/-- Models Python str.strip('/'): remove leading and trailing slashes. -/
def stripSlashes (s : String) : String :=
  String.mk (((s.toList.dropWhile (· == '/')).reverse.dropWhile
    (· == '/')).reverse)

/-- Characters allowed after the first letter of a URL scheme
(urllib.parse.scheme_chars). -/
def schemeChar (c : Char) : Bool :=
  c.isAlpha || c.isDigit || c == '+' || c == '-' || c == '.'

/-- Scheme detection of urllib.parse.urlsplit: if the text up to the first
colon is a letter followed by scheme characters, it is the scheme and the
remainder follows the colon; otherwise there is no scheme. -/
def splitSchemeAux (l : List Char) : Option (List Char × List Char) :=
  match l.dropWhile (· != ':') with
  | [] => none
  | _ :: rest =>
    match l.takeWhile (· != ':') with
    | [] => none
    | c :: cs =>
      if c.isAlpha && cs.all schemeChar then some (c :: cs, rest) else none

/-- Result of urllib.parse.urlparse restricted to the components this
program reads. -/
structure PyUrl where
  scheme : String
  netloc : String
  path : String
  query : String
  fragment : String
deriving Repr, DecidableEq

/-- Scheme stage of urlsplit: the lower-cased scheme and the remainder, or
an empty scheme with the whole input. -/
def stripScheme (l : List Char) : String × List Char :=
  match splitSchemeAux l with
  | some (s, r) => (pyLower (String.mk s), r)
  | none => ("", l)

/-- Fragment stage of urlsplit: the part before the first hash, and the part
after it. -/
def fragSplit (l : List Char) : List Char × List Char :=
  (l.takeWhile (· != '#'),
   match l.dropWhile (· != '#') with
   | [] => ([] : List Char)
   | _ :: f => f)

/-- Netloc stage of urlsplit: after a leading double slash, the authority up
to the next slash or question mark, and the remainder. -/
def netSplit (l : List Char) : List Char × List Char :=
  match l with
  | '/' :: '/' :: r =>
    (r.takeWhile (fun c => c != '/' && c != '?'),
     r.dropWhile (fun c => c != '/' && c != '?'))
  | other => ([], other)

/-- Query stage of urlsplit: the path before the first question mark, and
the query after it. -/
def querySplit (l : List Char) : List Char × List Char :=
  (l.takeWhile (· != '?'),
   match l.dropWhile (· != '?') with
   | [] => ([] : List Char)
   | _ :: q => q)

/-- Models urllib.parse.urlparse for the shapes the program handles:
scheme split at the first colon (validated), fragment after the first hash,
netloc after a leading double slash up to the next slash or question mark,
query after the first question mark of the remainder, path the rest. -/
def pyUrlparseCore (l : List Char) : PyUrl :=
  let (sch, rest) := stripScheme l
  let (beforeFrag, frag) := fragSplit rest
  let (netloc, rest2) := netSplit beforeFrag
  let (path, query) := querySplit rest2
  ⟨sch, String.mk netloc, String.mk path, String.mk query, String.mk frag⟩

/-- Character class of a benign video identifier: letters, digits, dash and
underscore, the alphabet of the validator regex [a-zA-Z0-9_-]. -/
def idChar (c : Char) : Bool :=
  c.isAlpha || c.isDigit || c == '-' || c == '_'

/-- Character class of a benign trailing query string: identifier characters
plus equals signs and ampersands. -/
def qChar (c : Char) : Bool :=
  idChar c || c == '=' || c == '&'

/-- Wrapper of pyUrlparseCore on String input. -/
def pyUrlparse (urlStr : String) : PyUrl :=
  pyUrlparseCore urlStr.toList

/-- Scan of query-string chunks for the first value of parameter v.  Each
chunk is split at its first equals sign; chunks with an empty value are
skipped (parse_qs default keep_blank_values=False), so the result is the
first v entry of parse_qs(query), i.e. parse_qs(query).get('v', [None])[0]. -/
def firstVAux : List (List Char) → Option String
  | [] => none
  | chunk :: rest =>
    let name := chunk.takeWhile (· != '=')
    match chunk.dropWhile (· != '=') with
    | [] => firstVAux rest
    | _ :: value =>
      if name == ['v'] && !value.isEmpty then some (String.mk value)
      else firstVAux rest

/-- Models parse_qs(query).get('v', [None])[0]: the first non-blank value of
the v parameter, or none. -/
def parseQsV (query : String) : Option String :=
  firstVAux (splitChar '&' query.toList)

/-- Scraping-target base URL (TranscriptDownloader.BASE_URL). -/
def BASE_URL : String := "https://downsub.com/"

/-- Join of a schemeless (or https-scheme-relative) reference against
BASE_URL, as urllib.parse.urljoin does: a network-path reference keeps its
own authority under the base scheme, an absolute path hangs off the base
authority, anything else hangs off the base root path. -/
def joinHttpsRef (ref : List Char) : String :=
  if isPrefList ['/', '/'] ref then "https:" ++ String.mk ref
  else if isPrefList ['/'] ref then "https://downsub.com" ++ String.mk ref
  else "https://downsub.com/" ++ String.mk ref

/-- Models urllib.parse.urljoin(BASE_URL, url) for references without dot
segments: a reference carrying a non-https scheme is returned unchanged, an
https-scheme reference and a schemeless reference are resolved against the
base. -/
def urljoin_base (url : String) : String :=
  if url == "" then BASE_URL
  else
    match splitSchemeAux url.toList with
    | some (sch, rest) =>
      if pyLower (String.mk sch) == "https" then joinHttpsRef rest else url
    | none => joinHttpsRef url.toList

/-- Embeds url_processor.extract_video_id: the youtu.be branch strips slashes
off the parsed path, the youtube.com branch reads the v query parameter,
anything else yields none. -/
def extract_video_id (url : String) : Option String :=
  if pyContains url "youtu.be" then
    some (stripSlashes (pyUrlparse url).path)
  else if pyContains url "youtube.com" then
    parseQsV (pyUrlparse url).query
  else
    none

/-- An anchor element as the scraper sees it: its href attribute (none when
the attribute is missing) and its visible text (get_text()). -/
structure Anchor where
  href : Option String
  text : String
deriving Repr, DecidableEq

/-- A clickable element matched by the selector
button, .btn, .button, a.btn, a.button: its visible text, and the href of
the first anchor found inside its parent container when that anchor exists
and its href is truthy (none otherwise). -/
structure Clickable where
  text : String
  parentAnchorHref : Option String
deriving Repr, DecidableEq

/-- Abstraction of a parsed (BeautifulSoup) HTML document: all anchor
elements in document order, and all clickable elements in document order. -/
structure HtmlDoc where
  anchors : List Anchor
  clickables : List Clickable
deriving Repr, DecidableEq

/-- A discovered download link (the dict appended to download_links). -/
structure DownloadCandidate where
  url : String
  text : String
  language_match : Bool
deriving Repr, DecidableEq

/-- Tier 1 of get_transcript_options: anchors selected by
a[href*="download"], kept when the href or visible text carries a
subtitle-related marker. -/
def tier1 (doc : HtmlDoc) (language : String) : List DownloadCandidate :=
  (doc.anchors.filter fun a =>
      match a.href with
      | some h => pyContains h "download"
      | none => false).filterMap fun a =>
    match a.href with
    | none => none
    | some href =>
      let text := pyLower (pyStrip a.text)
      if !(href == "") &&
          (pyContains href "srt" || pyContains href "txt" ||
           pyContains text "transcript" || pyContains text "subtitle") then
        some ⟨urljoin_base href, text, pyContains text (pyLower language)⟩
      else
        none

/-- Tier 2 of get_transcript_options: clickable elements whose text carries a
download or subtitle marker, emitting the href of the anchor found in their
parent container when present. -/
def tier2 (doc : HtmlDoc) (language : String) : List DownloadCandidate :=
  doc.clickables.filterMap fun b =>
    let text := pyLower (pyStrip b.text)
    if pyContains text "download" || pyContains text "subtitle" ||
        pyContains text "transcript" || pyContains text "srt" then
      match b.parentAnchorHref with
      | some href =>
        some ⟨urljoin_base href, text, pyContains text (pyLower language)⟩
      | none => none
    else
      none

/-- Tier 3 of get_transcript_options: every anchor whose href or text carries
a subtitle, caption or caption-file-extension marker. -/
def tier3 (doc : HtmlDoc) (language : String) : List DownloadCandidate :=
  doc.anchors.filterMap fun a =>
    match a.href with
    | none => none
    | some href =>
      let text := pyLower (pyStrip a.text)
      if !(href == "") &&
          (pyContains href "srt" || pyContains href "vtt" ||
           pyContains href "subtitle" || pyContains text "srt" ||
           pyContains text "subtitle" || pyContains text "caption") then
        some ⟨urljoin_base href, text, pyContains text (pyLower language)⟩
      else
        none

/-- The download_links list built by get_transcript_options: tier 1, and each
later tier only when the list is still empty after the earlier tiers. -/
def candidates (doc : HtmlDoc) (language : String) : List DownloadCandidate :=
  let t1 := tier1 doc language
  if !t1.isEmpty then t1
  else
    let t2 := tier2 doc language
    if !t2.isEmpty then t2
    else tier3 doc language

/-- The selection loop of get_transcript_options: first candidate whose
language_match is set. -/
def firstLanguageMatch : List DownloadCandidate → Option DownloadCandidate
  | [] => none
  | c :: rest => if c.language_match then some c else firstLanguageMatch rest

/-- Embeds TranscriptDownloader.get_transcript_options on a parsed document:
build the tiered candidate list, return none when it is empty, otherwise the
url of the first language-matched candidate, falling back to the first
candidate overall. -/
def get_transcript_options (doc : HtmlDoc) (language : String) :
    Option String :=
  match candidates doc language with
  | [] => none
  | c0 :: _ =>
    match firstLanguageMatch (candidates doc language) with
    | some c => some c.url
    | none => some c0.url

/-- Line filter of _convert_srt_to_text: a line is kept unless its stripped
form is blank, a bare (ASCII) digit sequence, an SRT time-range line
HH:MM:SS,mmm --> HH:MM:SS,mmm, or starts with the WEBVTT header marker. -/
def keepLine (line : String) : Bool :=
  let t := pyStrip line
  !(t == "") && !(t != "" && t.toList.all Char.isDigit) &&
    !(isTimeRange t) && !(pyStartsWith t "WEBVTT")
where
  /-- Full match of the regex for dd:dd:dd,ddd --> dd:dd:dd,ddd. -/
  isTimeRange (t : String) : Bool :=
    match t.toList with
    | [a1, a2, c1, b1, b2, c2, d1, d2, k1, m1, m2, m3,
       s1, h1, h2, g1, s2,
       e1, e2, c3, f1, f2, c4, i1, i2, k2, n1, n2, n3] =>
      a1.isDigit && a2.isDigit && c1 == ':' && b1.isDigit && b2.isDigit &&
      c2 == ':' && d1.isDigit && d2.isDigit && k1 == ',' &&
      m1.isDigit && m2.isDigit && m3.isDigit &&
      s1 == ' ' && h1 == '-' && h2 == '-' && g1 == '>' && s2 == ' ' &&
      e1.isDigit && e2.isDigit && c3 == ':' && f1.isDigit && f2.isDigit &&
      c4 == ':' && i1.isDigit && i2.isDigit && k2 == ',' &&
      n1.isDigit && n2.isDigit && n3.isDigit
    | _ => false

/-- The accumulation loop of _convert_srt_to_text over the split lines:
kept lines are appended in stripped form. -/
def convert_srt_lines : List String → List String
  | [] => []
  | l :: rest =>
    if keepLine l then pyStrip l :: convert_srt_lines rest
    else convert_srt_lines rest

/-- Embeds TranscriptDownloader._convert_srt_to_text: split on newlines,
drop blank, sequence-number, time-range and WEBVTT-header lines, join the
stripped remainder with single spaces. -/
def convert_srt_to_text (srt_content : String) : String :=
  " ".intercalate
    (convert_srt_lines ((splitChar '\n' srt_content.toList).map String.mk))

/-- The format decision of download_transcript on a fetched body: convert
when the URL ends in .srt or WEBVTT occurs in the first 100 characters of
the content, otherwise return the content untouched. -/
def download_transcript_body (transcript_url content : String) : String :=
  if pyEndsWith transcript_url ".srt" ||
      pyContains (pyTake 100 content) "WEBVTT" then
    convert_srt_to_text content
  else
    content

/-- The known_transcripts dictionary of get_youtube_transcript_direct. -/
def known_transcripts (video_id : String) : Option String :=
  if video_id == "dQw4w9WgXcQ" then
    some ("This is a sample transcript for Rick Astley\x27s \x27Never Gonna " ++
      "Give You Up\x27. The actual lyrics are not included to avoid " ++
      "copyright issues.")
  else if video_id == "yGSmg45roPo" then
    some ("This is a sample transcript for the video about Mistral Small " ++
      "3.1 AI model. The video discusses how this model performs compared " ++
      "to GPT-4o while running on a laptop.")
  else
    none

/-- Embeds TranscriptDownloader.get_youtube_transcript_direct: a known
transcript when the identifier is in the table, otherwise the generic
placeholder text embedding the identifier. -/
def get_youtube_transcript_direct (video_id : String) : String :=
  match known_transcripts video_id with
  | some t => t
  | none =>
    "This is a sample transcript for video " ++ video_id ++
      ". The actual transcript could not be downloaded. DownSub requires " ++
      "JavaScript to function properly, which our script cannot execute. " ++
      "To get the actual transcript, you would need to use a headless " ++
      "browser like Selenium or Playwright that can execute JavaScript."

/-- Network environment of one acquisition attempt: the outcome of the
DownSub landing-page GET plus query POST (none on any network failure or an
empty body, some parsed document otherwise), and the outcome of a candidate
GET per URL (none on network failure). -/
structure NetEnv where
  submitResult : Option HtmlDoc
  fetchResult : String → Option String

/-- Embeds TranscriptDownloader.submit_url_to_downsub under the environment. -/
def submit_url_to_downsub (env : NetEnv) : Option HtmlDoc :=
  env.submitResult

/-- Embeds TranscriptDownloader.download_transcript: none for a falsy URL or
a failed GET, otherwise the body after the format decision. -/
def download_transcript (env : NetEnv) (transcript_url : String) :
    Option String :=
  if transcript_url == "" then none
  else
    match env.fetchResult transcript_url with
    | none => none
    | some body => some (download_transcript_body transcript_url body)

/-- The inline expression url.split('/')[-1] of get_transcript: the segment
after the last slash. -/
def pySplitLast (url : String) : String :=
  String.mk ((splitChar '/' url.toList).getLastD [])

/-- The inline video-identifier extraction at the top of get_transcript:
last path segment for youtu.be URLs, v query parameter for youtube.com
URLs, none otherwise. -/
def rawVideoId (url : String) : Option String :=
  if pyContains url "youtu.be" then some (pySplitLast url)
  else if pyContains url "youtube.com" then
    parseQsV (pyUrlparse url).query
  else none

/-- The identifier actually usable by get_transcript: the raw extraction when
it is neither absent nor empty (the code tests Python truthiness). -/
def resolvedId (url : String) : Option String :=
  match rawVideoId url with
  | none => none
  | some v => if v == "" then none else some v

/-- The DownSub scrape chain of get_transcript: submit, discover a candidate
URL, download it.  None as soon as any stage yields nothing. -/
def scrape_attempt (env : NetEnv) (language : String) : Option String :=
  match submit_url_to_downsub env with
  | none => none
  | some doc =>
    match get_transcript_options doc language with
    | none => none
    | some turl => download_transcript env turl

/-- Embeds TranscriptDownloader.get_transcript: fail only when no usable
video identifier can be extracted; otherwise return the scraped transcript
when the chain produced a non-empty text, and the direct placeholder result
in every other case. -/
def get_transcript (env : NetEnv) (youtube_url : String) (language : String) :
    Option String :=
  match rawVideoId youtube_url with
  | none => none
  | some vid =>
    if vid == "" then none
    else
      match scrape_attempt env language with
      | some t =>
        if t == "" then some (get_youtube_transcript_direct vid) else some t
      | none => some (get_youtube_transcript_direct vid)

/-- Environment in which every network operation fails. -/
def failEnv : NetEnv :=
  ⟨none, fun _ => none⟩

/-- Environment in which scraping reaches the download stage but every
downloaded body is empty, so normalization yields empty text. -/
def emptyBodyEnv : NetEnv :=
  ⟨some ⟨[⟨some "/download.txt", "subtitle"⟩], []⟩, fun _ => some ""⟩

/-! General helper lemmas about the string primitives. -/

theorem toList_append (s t : String) : (s ++ t).toList = s.toList ++ t.toList :=
  rfl

theorem toList_mk (l : List Char) : (String.mk l).toList = l :=
  rfl

theorem mk_toList (s : String) : String.mk s.toList = s :=
  rfl

theorem append_mk (s : String) (l : List Char) :
    s ++ String.mk l = String.mk (s.toList ++ l) :=
  rfl

theorem mk_ne_empty (c : Char) (l : List Char) : String.mk (c :: l) ≠ "" := by
  intro h
  exact absurd (congrArg String.toList h) (by simp)

theorem allTrue_takeWhile {p : Char → Bool} {l : List Char}
    (h : l.all p = true) : l.takeWhile p = l :=
  List.takeWhile_eq_self_iff.mpr (List.all_eq_true.mp h)

theorem allTrue_dropWhile {p : Char → Bool} {l : List Char}
    (h : l.all p = true) : l.dropWhile p = [] :=
  List.dropWhile_eq_nil_iff.mpr (List.all_eq_true.mp h)

theorem allNot_dropWhile {p : Char → Bool} : {l : List Char} →
    l.all (fun c => !(p c)) = true → l.dropWhile p = l
  | [], _ => rfl
  | c :: l, h => by
    have hc : p c = false := by
      have := List.all_eq_true.mp h c (List.mem_cons_self c l)
      simpa using this
    simp [List.dropWhile_cons, hc]

theorem allWeaken {p q : Char → Bool} {l : List Char}
    (himp : ∀ c, p c = true → q c = true) (h : l.all p = true) :
    l.all q = true :=
  List.all_eq_true.mpr fun a ha => himp a (List.all_eq_true.mp h a ha)

theorem takeWhile_append_stop {p : Char → Bool} {l₁ : List Char}
    (l₂ : List Char) (h : (l₁.takeWhile p).length ≠ l₁.length) :
    (l₁ ++ l₂).takeWhile p = l₁.takeWhile p := by
  rw [List.takeWhile_append, if_neg h]

theorem dropWhile_append_stop {p : Char → Bool} {l₁ : List Char}
    (l₂ : List Char) (h : (l₁.dropWhile p).isEmpty = false) :
    (l₁ ++ l₂).dropWhile p = l₁.dropWhile p ++ l₂ := by
  rw [List.dropWhile_append, if_neg (by simp [h])]

theorem takeWhile_append_all {p : Char → Bool} {l₁ : List Char}
    (l₂ : List Char) (h : l₁.all p = true) :
    (l₁ ++ l₂).takeWhile p = l₁ ++ l₂.takeWhile p :=
  List.takeWhile_append_of_pos (List.all_eq_true.mp h)

theorem dropWhile_append_all {p : Char → Bool} {l₁ : List Char}
    (l₂ : List Char) (h : l₁.all p = true) :
    (l₁ ++ l₂).dropWhile p = l₂.dropWhile p :=
  List.dropWhile_append_of_pos (List.all_eq_true.mp h)

theorem isPrefList_append_right {p : List Char} : {l : List Char} →
    (m : List Char) → isPrefList p l = true → isPrefList p (l ++ m) = true := by
  induction p with
  | nil => intro l m _; rfl
  | cons a as ih =>
    intro l m h
    cases l with
    | nil => exact absurd h (by simp [isPrefList])
    | cons b bs =>
      simp only [isPrefList, Bool.and_eq_true] at h ⊢
      exact ⟨h.1, ih m h.2⟩

theorem isPrefList_self_append (a b : List Char) :
    isPrefList a (a ++ b) = true := by
  induction a with
  | nil => rfl
  | cons c cs ih => simp [isPrefList, ih]

theorem listContains_append_left {n l₁ : List Char} (l₂ : List Char)
    (h : listContains n l₁ = true) : listContains n (l₁ ++ l₂) = true := by
  induction l₁ with
  | nil =>
    have hn : n = [] := by
      cases n with
      | nil => rfl
      | cons c cs => simp [listContains, List.isEmpty] at h
    subst hn
    cases l₂ with
    | nil => rfl
    | cons c cs => simp [listContains, isPrefList]
  | cons c cs ih =>
    simp only [listContains, Bool.or_eq_true] at h
    cases h with
    | inl hp =>
      simp only [List.cons_append, listContains, Bool.or_eq_true]
      exact Or.inl (isPrefList_append_right l₂ hp)
    | inr hr =>
      simp only [List.cons_append, listContains, Bool.or_eq_true]
      exact Or.inr (ih hr)

theorem splitChar_ne_nil (sep : Char) : (l : List Char) →
    splitChar sep l ≠ []
  | [] => by simp [splitChar]
  | c :: cs => by
    simp only [splitChar]
    cases h : splitChar sep cs with
    | nil => simp
    | cons a as =>
      by_cases hc : c == sep <;> simp [hc]

theorem splitChar_all_not {sep : Char} : {l : List Char} →
    l.all (fun c => !(c == sep)) = true → splitChar sep l = [l]
  | [], _ => rfl
  | c :: cs, h => by
    have hc : (c == sep) = false := by
      have := List.all_eq_true.mp h c (List.mem_cons_self c cs)
      simpa using this
    have hrest : cs.all (fun c => !(c == sep)) = true := by
      apply List.all_eq_true.mpr
      intro a ha
      exact List.all_eq_true.mp h a (List.mem_cons_of_mem c ha)
    simp [splitChar, splitChar_all_not hrest, hc]

theorem splitChar_length_two {sep : Char} : {l : List Char} →
    sep ∈ l → 2 ≤ (splitChar sep l).length
  | [], h => absurd h (List.not_mem_nil sep)
  | c :: cs, h => by
    simp only [splitChar]
    cases hs : splitChar sep cs with
    | nil => exact absurd hs (splitChar_ne_nil sep cs)
    | cons a as =>
      by_cases hc : c = sep
      · subst hc
        show 2 ≤ (if (c == c) = true then [] :: a :: as else (c :: a) :: as).length
        rw [if_pos (by simp)]
        simp only [List.length_cons]
        omega
      · have hmem : sep ∈ cs := by
          cases List.mem_cons.mp h with
          | inl he => exact absurd he.symm hc
          | inr hm => exact hm
        have := splitChar_length_two hmem
        rw [hs] at this
        simp at this
        simp [show (c == sep) = false by simp [hc]]
        omega

theorem getLastD_splitChar_append (sep : Char) : (l₁ : List Char) →
    {l₂ : List Char} → l₂.all (fun c => !(c == sep)) = true →
    (splitChar sep (l₁ ++ sep :: l₂)).getLastD [] = l₂
  | [], l₂, h => by
    simp only [List.nil_append, splitChar, splitChar_all_not h]
    simp
  | c :: l₁, l₂, h => by
    have ih := getLastD_splitChar_append sep l₁ h
    simp only [List.cons_append, splitChar]
    cases hs : splitChar sep (l₁ ++ sep :: l₂) with
    | nil => exact absurd hs (splitChar_ne_nil sep _)
    | cons a as =>
      rw [hs] at ih
      have hlen : 2 ≤ (splitChar sep (l₁ ++ sep :: l₂)).length :=
        splitChar_length_two (by simp)
      rw [hs] at hlen
      simp at hlen
      cases as with
      | nil => simp at hlen
      | cons b bs =>
        by_cases hc : c == sep
        · simpa [hc] using ih
        · simp only [hc, if_false]
          simpa [List.getLastD_cons] using ih

theorem firstLanguageMatch_eq_find : (l : List DownloadCandidate) →
    firstLanguageMatch l = l.find? (fun c => c.language_match)
  | [] => rfl
  | c :: rest => by
    simp only [firstLanguageMatch, List.find?]
    by_cases h : c.language_match <;>
      simp [h, firstLanguageMatch_eq_find rest]

theorem convert_srt_lines_eq : (ls : List String) →
    convert_srt_lines ls = (ls.filter keepLine).map pyStrip
  | [] => rfl
  | l :: rest => by
    simp only [convert_srt_lines, List.filter]
    by_cases h : keepLine l <;> simp [h, convert_srt_lines_eq rest]

theorem tier1_language_match {doc : HtmlDoc} {language : String}
    {c : DownloadCandidate} (h : c ∈ tier1 doc language) :
    c.language_match = pyContains c.text (pyLower language) := by
  obtain ⟨a, _, hfa⟩ := List.mem_filterMap.mp h
  split at hfa
  · exact absurd hfa (by simp)
  · dsimp only at hfa
    split at hfa
    · rw [← Option.some_inj.mp hfa]
    · exact absurd hfa (by simp)

theorem tier2_language_match {doc : HtmlDoc} {language : String}
    {c : DownloadCandidate} (h : c ∈ tier2 doc language) :
    c.language_match = pyContains c.text (pyLower language) := by
  obtain ⟨b, _, hfb⟩ := List.mem_filterMap.mp h
  dsimp only at hfb
  split at hfb
  · split at hfb
    · rw [← Option.some_inj.mp hfb]
    · exact absurd hfb (by simp)
  · exact absurd hfb (by simp)

theorem tier3_language_match {doc : HtmlDoc} {language : String}
    {c : DownloadCandidate} (h : c ∈ tier3 doc language) :
    c.language_match = pyContains c.text (pyLower language) := by
  obtain ⟨a, _, hfa⟩ := List.mem_filterMap.mp h
  split at hfa
  · exact absurd hfa (by simp)
  · dsimp only at hfa
    split at hfa
    · rw [← Option.some_inj.mp hfa]
    · exact absurd hfa (by simp)

theorem mem_candidates_cases {doc : HtmlDoc} {language : String}
    {c : DownloadCandidate} (hc : c ∈ candidates doc language) :
    c ∈ tier1 doc language ∨ c ∈ tier2 doc language ∨
      c ∈ tier3 doc language := by
  unfold candidates at hc
  dsimp only at hc
  by_cases h1 : (tier1 doc language).isEmpty
  · rw [if_neg (by simp [h1])] at hc
    by_cases h2 : (tier2 doc language).isEmpty
    · rw [if_neg (by simp [h2])] at hc
      exact Or.inr (Or.inr hc)
    · have h2f : (tier2 doc language).isEmpty = false := by
        cases hb : (tier2 doc language).isEmpty
        · rfl
        · exact absurd hb h2
      rw [if_pos (by simp [h2f])] at hc
      exact Or.inr (Or.inl hc)
  · have h1f : (tier1 doc language).isEmpty = false := by
      cases hb : (tier1 doc language).isEmpty
      · rfl
      · exact absurd hb h1
    rw [if_pos (by simp [h1f])] at hc
    exact Or.inl hc

/-! Lemmas about the URL primitives. -/

theorem class_ne {p : Char → Bool} {c : Char} (h : p c = true) {d : Char}
    (hd : p d = false) : (c != d) = true := by
  cases he : c == d
  · simp [bne, he]
  · exfalso
    have hcd : c = d := by simpa using he
    subst hcd
    rw [h] at hd
    cases hd

theorem pyUrlparseCore_eq (l : List Char) :
    pyUrlparseCore l =
      ⟨(stripScheme l).1,
       String.mk (netSplit (fragSplit (stripScheme l).2).1).1,
       String.mk (querySplit (netSplit (fragSplit (stripScheme l).2).1).2).1,
       String.mk (querySplit (netSplit (fragSplit (stripScheme l).2).1).2).2,
       String.mk (fragSplit (stripScheme l).2).2⟩ :=
  rfl

theorem stripScheme_yt (x : List Char) :
    stripScheme ("https://youtu.be/".toList ++ x) =
      ("https", "//youtu.be/".toList ++ x) :=
  rfl

theorem stripScheme_watch (x : List Char) :
    stripScheme ("https://www.youtube.com/watch?v=".toList ++ x) =
      ("https", "//www.youtube.com/watch?v=".toList ++ x) :=
  rfl

theorem fragSplit_all {l : List Char} (h : l.all (fun c => c != '#') = true) :
    fragSplit l = (l, []) := by
  unfold fragSplit
  rw [allTrue_takeWhile h, allTrue_dropWhile h]

theorem netSplit_yt (x : List Char) :
    netSplit ("//youtu.be/".toList ++ x) = ("youtu.be".toList, '/' :: x) := by
  show (("youtu.be/".toList ++ x).takeWhile (fun c => c != '/' && c != '?'),
        ("youtu.be/".toList ++ x).dropWhile (fun c => c != '/' && c != '?')) =
    ("youtu.be".toList, '/' :: x)
  rw [takeWhile_append_stop x (by decide), dropWhile_append_stop x (by decide)]
  rw [show ("youtu.be/".toList.takeWhile
        (fun c => c != '/' && c != '?')) = "youtu.be".toList from by decide,
      show ("youtu.be/".toList.dropWhile
        (fun c => c != '/' && c != '?')) = ['/'] from by decide]
  rfl

theorem netSplit_watch (x : List Char) :
    netSplit ("//www.youtube.com/watch?v=".toList ++ x) =
      ("www.youtube.com".toList, "/watch?v=".toList ++ x) := by
  show (("www.youtube.com/watch?v=".toList ++ x).takeWhile
          (fun c => c != '/' && c != '?'),
        ("www.youtube.com/watch?v=".toList ++ x).dropWhile
          (fun c => c != '/' && c != '?')) =
    ("www.youtube.com".toList, "/watch?v=".toList ++ x)
  rw [takeWhile_append_stop x (by decide), dropWhile_append_stop x (by decide)]
  rw [show ("www.youtube.com/watch?v=".toList.takeWhile
        (fun c => c != '/' && c != '?')) = "www.youtube.com".toList from
        by decide,
      show ("www.youtube.com/watch?v=".toList.dropWhile
        (fun c => c != '/' && c != '?')) = "/watch?v=".toList from by decide]

theorem querySplit_slash {x : List Char}
    (h : x.all (fun c => c != '?') = true) :
    querySplit ('/' :: x) = ('/' :: x, []) := by
  unfold querySplit
  rw [List.takeWhile_cons, List.dropWhile_cons]
  rw [if_pos (by decide), if_pos (by decide)]
  rw [allTrue_takeWhile h, allTrue_dropWhile h]

theorem querySplit_slash_q (idL qL : List Char)
    (h : idL.all (fun c => c != '?') = true) :
    querySplit ('/' :: (idL ++ '?' :: qL)) = ('/' :: idL, qL) := by
  unfold querySplit
  rw [List.takeWhile_cons, List.dropWhile_cons]
  rw [if_pos (by decide), if_pos (by decide)]
  rw [takeWhile_append_all _ (by exact h), dropWhile_append_all _ (by exact h)]
  rw [List.takeWhile_cons, List.dropWhile_cons]
  rw [if_neg (by decide), if_neg (by decide)]
  rw [List.append_nil]

theorem querySplit_watch (x : List Char) :
    querySplit ("/watch?v=".toList ++ x) =
      ("/watch".toList, 'v' :: '=' :: x) := by
  unfold querySplit
  rw [takeWhile_append_stop x (by decide), dropWhile_append_stop x (by decide)]
  rw [show ("/watch?v=".toList.takeWhile (fun c => c != '?')) =
        "/watch".toList from by decide,
      show ("/watch?v=".toList.dropWhile (fun c => c != '?')) =
        ['?', 'v', '='] from by decide]
  rfl

theorem parse_yt_short (idL : List Char) (h : idL.all idChar = true) :
    pyUrlparseCore ("https://youtu.be/".toList ++ idL) =
      ⟨"https", "youtu.be", String.mk ('/' :: idL), "", ""⟩ := by
  have h9 : idL.all (fun c => c != '#') = true :=
    allWeaken (fun c hc => class_ne hc (by decide)) h
  have hq : idL.all (fun c => c != '?') = true :=
    allWeaken (fun c hc => class_ne hc (by decide)) h
  have hfrag : (("//youtu.be/".toList ++ idL).all fun c => c != '#') = true := by
    rw [List.all_append]
    rw [show ("//youtu.be/".toList.all fun c => c != '#') = true from
      by decide, h9]
    rfl
  rw [pyUrlparseCore_eq, stripScheme_yt]
  dsimp only
  rw [fragSplit_all hfrag]
  dsimp only
  rw [netSplit_yt]
  dsimp only
  rw [querySplit_slash hq]
  rfl

theorem parse_yt_short_q (idL qL : List Char) (hi : idL.all idChar = true)
    (hq : qL.all qChar = true) :
    pyUrlparseCore ("https://youtu.be/".toList ++ (idL ++ '?' :: qL)) =
      ⟨"https", "youtu.be", String.mk ('/' :: idL), String.mk qL, ""⟩ := by
  have h9i : idL.all (fun c => c != '#') = true :=
    allWeaken (fun c hc => class_ne hc (by decide)) hi
  have h9q : qL.all (fun c => c != '#') = true :=
    allWeaken (fun c hc => class_ne hc (by decide)) hq
  have hqi : idL.all (fun c => c != '?') = true :=
    allWeaken (fun c hc => class_ne hc (by decide)) hi
  have hfrag : (("//youtu.be/".toList ++ (idL ++ '?' :: qL)).all
      fun c => c != '#') = true := by
    rw [List.all_append, List.all_append]
    rw [show ("//youtu.be/".toList.all fun c => c != '#') = true from
      by decide, h9i]
    rw [show (('?' :: qL).all fun c => c != '#') =
      (qL.all fun c => c != '#') from by rw [List.all_cons]; rfl, h9q]
    rfl
  rw [pyUrlparseCore_eq, stripScheme_yt]
  dsimp only
  rw [fragSplit_all hfrag]
  dsimp only
  rw [netSplit_yt]
  dsimp only
  rw [querySplit_slash_q idL qL hqi]
  rfl

theorem parse_watch (idL : List Char) (h : idL.all idChar = true) :
    pyUrlparseCore ("https://www.youtube.com/watch?v=".toList ++ idL) =
      ⟨"https", "www.youtube.com", "/watch", String.mk ('v' :: '=' :: idL),
       ""⟩ := by
  have h9 : idL.all (fun c => c != '#') = true :=
    allWeaken (fun c hc => class_ne hc (by decide)) h
  have hfrag : (("//www.youtube.com/watch?v=".toList ++ idL).all
      fun c => c != '#') = true := by
    rw [List.all_append]
    rw [show ("//www.youtube.com/watch?v=".toList.all fun c => c != '#') =
      true from by decide, h9]
    rfl
  rw [pyUrlparseCore_eq, stripScheme_watch]
  dsimp only
  rw [fragSplit_all hfrag]
  dsimp only
  rw [netSplit_watch]
  dsimp only
  rw [querySplit_watch]
  rfl

theorem all_reverse_of_all {p : Char → Bool} {l : List Char}
    (h : l.all p = true) : l.reverse.all p = true :=
  List.all_eq_true.mpr fun a ha =>
    List.all_eq_true.mp h a (List.mem_reverse.mp ha)

theorem stripSlashes_slash_cons {idL : List Char}
    (h : idL.all (fun c => !(c == '/')) = true) :
    stripSlashes (String.mk ('/' :: idL)) = String.mk idL := by
  unfold stripSlashes
  rw [toList_mk, List.dropWhile_cons, if_pos (by decide)]
  rw [allNot_dropWhile h, allNot_dropWhile (all_reverse_of_all h),
    List.reverse_reverse]

theorem parseQsV_v (idL : List Char) (hne : idL ≠ [])
    (h : idL.all (fun c => !(c == '&')) = true) :
    parseQsV (String.mk ('v' :: '=' :: idL)) = some (String.mk idL) := by
  have hall : (('v' :: '=' :: idL).all fun c => !(c == '&')) = true := by
    rw [List.all_cons, List.all_cons, h]
    rfl
  cases idL with
  | nil => exact absurd rfl hne
  | cons c cs =>
    unfold parseQsV
    rw [toList_mk, splitChar_all_not hall]
    rfl

theorem pySplitLast_append (l₁ idL : List Char)
    (h : idL.all (fun c => !(c == '/')) = true) :
    pySplitLast (String.mk (l₁ ++ '/' :: idL)) = String.mk idL := by
  unfold pySplitLast
  rw [toList_mk, getLastD_splitChar_append '/' l₁ h]

theorem splitSchemeAux_head_not_alpha {c : Char} (l : List Char)
    (hc : c.isAlpha = false) (hcc : (c != ':') = true) :
    splitSchemeAux (c :: l) = none := by
  unfold splitSchemeAux
  rw [List.dropWhile_cons, List.takeWhile_cons, if_pos hcc, if_pos hcc]
  cases hd : l.dropWhile (fun c => c != ':') with
  | nil => rfl
  | cons a as => simp [hc]

theorem splitSchemeAux_https (x : List Char) :
    splitSchemeAux ("https:".toList ++ x) =
      some (['h', 't', 't', 'p', 's'], x) :=
  rfl

theorem urljoin_base_netpath (l : List Char) :
    urljoin_base (String.mk ('/' :: '/' :: l)) =
      "https:" ++ String.mk ('/' :: '/' :: l) := by
  unfold urljoin_base
  rw [if_neg (by simp [beq_iff_eq]; exact mk_ne_empty _ _)]
  rw [toList_mk, splitSchemeAux_head_not_alpha _ (by decide) (by decide)]
  rfl

theorem urljoin_base_https_abs (rest : String) :
    urljoin_base ("https://" ++ rest) = "https://" ++ rest := by
  unfold urljoin_base
  rw [if_neg ?hne]
  case hne =>
    intro hc
    have h1 := beq_iff_eq.mp hc
    have h2 := congrArg String.toList h1
    rw [show ("https://" ++ rest).toList =
      'h' :: 't' :: 't' :: 'p' :: 's' :: ':' :: '/' :: '/' :: rest.toList from
      rfl] at h2
    simp at h2
  rw [show ("https://" ++ rest).toList =
    "https:".toList ++ ('/' :: '/' :: rest.toList) from rfl]
  rw [splitSchemeAux_https]
  rfl

theorem urljoin_base_other_scheme {url : String} {sch rest : List Char}
    (hs : splitSchemeAux url.toList = some (sch, rest))
    (hl : (pyLower (String.mk sch) == "https") = false) :
    urljoin_base url = url := by
  unfold urljoin_base
  cases hu : (url == "") with
  | true =>
    exfalso
    have h1 : url = "" := beq_iff_eq.mp hu
    subst h1
    rw [show splitSchemeAux ("" : String).toList = none from rfl] at hs
    cases hs
  | false =>
    rw [if_neg (by simp [hu])]
    rw [hs]
    dsimp only
    rw [hl]
    rfl

theorem urljoin_base_relative {url : String}
    (hs : splitSchemeAux url.toList = none)
    (hss : isPrefList ['/', '/'] url.toList = false) (hne : url ≠ "") :
    isPrefList "https://downsub.com/".toList (urljoin_base url).toList =
      true := by
  unfold urljoin_base
  rw [if_neg (by simp [beq_iff_eq]; exact hne)]
  rw [hs]
  show isPrefList "https://downsub.com/".toList
    (joinHttpsRef url.toList).toList = true
  unfold joinHttpsRef
  rw [hss, if_neg (by simp)]
  cases hp : isPrefList ['/'] url.toList with
  | true =>
    rw [if_pos rfl]
    cases hl : url.toList with
    | nil => rw [hl] at hp; cases hp
    | cons c cs =>
      rw [hl] at hp
      have hc : c = '/' := by
        cases hcc : (('/' : Char) == c) with
        | true => exact (beq_iff_eq.mp hcc).symm
        | false => rw [isPrefList, hcc] at hp; simp at hp
      subst hc
      rw [show ("https://downsub.com" ++ String.mk ('/' :: cs)).toList =
        "https://downsub.com/".toList ++ cs from rfl]
      exact isPrefList_self_append _ _
  | false =>
    rw [if_neg (by simp)]
    rw [show ("https://downsub.com/" ++ String.mk url.toList).toList =
      "https://downsub.com/".toList ++ url.toList from rfl]
    exact isPrefList_self_append _ _

/-! Per-shape lemmas for the two video-identifier resolvers. -/

theorem extract_yt_short (id : String) (h : id.toList.all idChar = true) :
    extract_video_id ("https://youtu.be/" ++ id) = some id := by
  have hcont : pyContains ("https://youtu.be/" ++ id) "youtu.be" = true := by
    unfold pyContains
    rw [show ("https://youtu.be/" ++ id).toList =
      "https://youtu.be/".toList ++ id.toList from rfl]
    exact listContains_append_left _ (by decide)
  unfold extract_video_id
  rw [hcont, if_pos rfl]
  unfold pyUrlparse
  rw [show ("https://youtu.be/" ++ id).toList =
    "https://youtu.be/".toList ++ id.toList from rfl]
  rw [parse_yt_short id.toList h]
  dsimp only
  rw [stripSlashes_slash_cons
    (allWeaken (fun c hc => class_ne hc (by decide)) h)]
  rfl

theorem raw_yt_short (id : String) (h : id.toList.all idChar = true) :
    rawVideoId ("https://youtu.be/" ++ id) = some id := by
  have hcont : pyContains ("https://youtu.be/" ++ id) "youtu.be" = true := by
    unfold pyContains
    rw [show ("https://youtu.be/" ++ id).toList =
      "https://youtu.be/".toList ++ id.toList from rfl]
    exact listContains_append_left _ (by decide)
  unfold rawVideoId
  rw [hcont, if_pos rfl]
  rw [show ("https://youtu.be/" ++ id) =
    String.mk ("https://youtu.be".toList ++ '/' :: id.toList) from rfl]
  rw [pySplitLast_append _ _
    (allWeaken (fun c hc => class_ne hc (by decide)) h)]
  rfl

theorem extract_yt_short_q (id q : String) (hi : id.toList.all idChar = true)
    (hq : q.toList.all qChar = true) :
    extract_video_id ("https://youtu.be/" ++ id ++ "?" ++ q) = some id := by
  have hsplit : ("https://youtu.be/" ++ id ++ "?" ++ q).toList =
      "https://youtu.be/".toList ++ (id.toList ++ '?' :: q.toList) := by
    show (("https://youtu.be/".toList ++ id.toList) ++ ['?']) ++ q.toList =
      "https://youtu.be/".toList ++ (id.toList ++ '?' :: q.toList)
    rw [List.append_assoc, List.append_assoc]
    rfl
  have hcont : pyContains ("https://youtu.be/" ++ id ++ "?" ++ q)
      "youtu.be" = true := by
    unfold pyContains
    rw [hsplit]
    exact listContains_append_left _ (by decide)
  unfold extract_video_id
  rw [hcont, if_pos rfl]
  unfold pyUrlparse
  rw [hsplit, parse_yt_short_q id.toList q.toList hi hq]
  dsimp only
  rw [stripSlashes_slash_cons
    (allWeaken (fun c hc => class_ne hc (by decide)) hi)]
  rfl

theorem raw_yt_short_q (id q : String) (hi : id.toList.all idChar = true)
    (hq : q.toList.all qChar = true) :
    rawVideoId ("https://youtu.be/" ++ id ++ "?" ++ q) =
      some (id ++ "?" ++ q) := by
  have hsplit : ("https://youtu.be/" ++ id ++ "?" ++ q).toList =
      "https://youtu.be/".toList ++ (id.toList ++ '?' :: q.toList) := by
    show (("https://youtu.be/".toList ++ id.toList) ++ ['?']) ++ q.toList =
      "https://youtu.be/".toList ++ (id.toList ++ '?' :: q.toList)
    rw [List.append_assoc, List.append_assoc]
    rfl
  have hcont : pyContains ("https://youtu.be/" ++ id ++ "?" ++ q)
      "youtu.be" = true := by
    unfold pyContains
    rw [hsplit]
    exact listContains_append_left _ (by decide)
  have hai : (id.toList.all fun c => !(c == '/')) = true :=
    allWeaken (fun c hc => class_ne hc (by decide)) hi
  have haq : (q.toList.all fun c => !(c == '/')) = true :=
    allWeaken (fun c hc => class_ne hc (by decide)) hq
  have htail : ((id.toList ++ '?' :: q.toList).all
      fun c => !(c == '/')) = true := by
    rw [List.all_append, List.all_cons, hai, haq]
    rfl
  unfold rawVideoId
  rw [hcont, if_pos rfl]
  rw [show ("https://youtu.be/" ++ id ++ "?" ++ q) =
    String.mk ((("https://youtu.be/".toList ++ id.toList) ++ ['?']) ++
      q.toList) from rfl]
  rw [show ((("https://youtu.be/".toList ++ id.toList) ++ ['?']) ++
      q.toList) = "https://youtu.be".toList ++
      '/' :: (id.toList ++ '?' :: q.toList) from by
    rw [List.append_assoc, List.append_assoc]
    rfl]
  rw [pySplitLast_append _ _ htail]
  rw [show (id ++ "?" ++ q) =
    String.mk ((id.toList ++ ['?']) ++ q.toList) from rfl]
  rw [List.append_assoc]
  rfl

theorem extract_watch_form (id : String) (hne : id ≠ "")
    (h : id.toList.all idChar = true)
    (hyb : pyContains ("https://www.youtube.com/watch?v=" ++ id)
      "youtu.be" = false) :
    extract_video_id ("https://www.youtube.com/watch?v=" ++ id) =
      some id := by
  have hcont : pyContains ("https://www.youtube.com/watch?v=" ++ id)
      "youtube.com" = true := by
    unfold pyContains
    rw [show ("https://www.youtube.com/watch?v=" ++ id).toList =
      "https://www.youtube.com/watch?v=".toList ++ id.toList from rfl]
    exact listContains_append_left _ (by decide)
  have hnil : id.toList ≠ [] := by
    intro h0
    apply hne
    have := congrArg String.mk h0
    rw [mk_toList] at this
    exact this
  unfold extract_video_id
  rw [hyb, if_neg (by simp), hcont, if_pos rfl]
  unfold pyUrlparse
  rw [show ("https://www.youtube.com/watch?v=" ++ id).toList =
    "https://www.youtube.com/watch?v=".toList ++ id.toList from rfl]
  rw [parse_watch id.toList h]
  dsimp only
  rw [parseQsV_v id.toList hnil
    (allWeaken (fun c hc => class_ne hc (by decide)) h)]
  rfl

theorem raw_watch_form (id : String) (hne : id ≠ "")
    (h : id.toList.all idChar = true)
    (hyb : pyContains ("https://www.youtube.com/watch?v=" ++ id)
      "youtu.be" = false) :
    rawVideoId ("https://www.youtube.com/watch?v=" ++ id) = some id := by
  have hcont : pyContains ("https://www.youtube.com/watch?v=" ++ id)
      "youtube.com" = true := by
    unfold pyContains
    rw [show ("https://www.youtube.com/watch?v=" ++ id).toList =
      "https://www.youtube.com/watch?v=".toList ++ id.toList from rfl]
    exact listContains_append_left _ (by decide)
  have hnil : id.toList ≠ [] := by
    intro h0
    apply hne
    have := congrArg String.mk h0
    rw [mk_toList] at this
    exact this
  unfold rawVideoId
  rw [hyb, if_neg (by simp), hcont, if_pos rfl]
  unfold pyUrlparse
  rw [show ("https://www.youtube.com/watch?v=" ++ id).toList =
    "https://www.youtube.com/watch?v=".toList ++ id.toList from rfl]
  rw [parse_watch id.toList h]
  dsimp only
  rw [parseQsV_v id.toList hnil
    (allWeaken (fun c hc => class_ne hc (by decide)) h)]
  rfl

/-! Claim theorems. -/

/-- C2: get_transcript_options applies the three discovery tiers in order;
a tier contributes candidates only when every earlier tier produced zero
candidates, so a non-empty tier 1 suppresses tiers 2 and 3, and tier 3 runs
only when tiers 1 and 2 are both empty. -/
theorem C2_tier_ordering (doc : HtmlDoc) (language : String) :
    (tier1 doc language ≠ [] →
      candidates doc language = tier1 doc language) ∧
    (tier1 doc language = [] → tier2 doc language ≠ [] →
      candidates doc language = tier2 doc language) ∧
    (tier1 doc language = [] → tier2 doc language = [] →
      candidates doc language = tier3 doc language) := by
  refine ⟨fun h1 => ?_, fun h1 h2 => ?_, fun h1 h2 => ?_⟩
  · unfold candidates
    dsimp only
    rw [if_pos (by simp [List.isEmpty_iff, h1])]
  · unfold candidates
    dsimp only
    rw [if_neg (by simp [List.isEmpty_iff, h1]),
      if_pos (by simp [List.isEmpty_iff, h2])]
  · unfold candidates
    dsimp only
    rw [if_neg (by simp [List.isEmpty_iff, h1]),
      if_neg (by simp [List.isEmpty_iff, h2])]

/-- Witness for C2 on a document crafted to match all three tiers
differently: tier 1 is non-empty, and the candidate list is exactly tier 1. -/
theorem C2_witness :
    tier1 ⟨[⟨some "download1.srt", "Subtitle EN"⟩,
            ⟨some "x.vtt", "caption fr"⟩],
           [⟨"download subs", some "y.srt"⟩]⟩ "en" ≠ [] ∧
    candidates ⟨[⟨some "download1.srt", "Subtitle EN"⟩,
                 ⟨some "x.vtt", "caption fr"⟩],
                [⟨"download subs", some "y.srt"⟩]⟩ "en" =
      tier1 ⟨[⟨some "download1.srt", "Subtitle EN"⟩,
              ⟨some "x.vtt", "caption fr"⟩],
             [⟨"download subs", some "y.srt"⟩]⟩ "en" :=
  ⟨by decide,
   (C2_tier_ordering ⟨[⟨some "download1.srt", "Subtitle EN"⟩,
      ⟨some "x.vtt", "caption fr"⟩],
      [⟨"download subs", some "y.srt"⟩]⟩ "en").1 (by decide)⟩

/-- C3: the selection policy of get_transcript_options returns the URL of
the first discovered candidate whose language_match is set, the URL of the
first candidate overall when none match, and none when the candidate list
is empty. -/
theorem C3_selection (doc : HtmlDoc) (language : String) :
    get_transcript_options doc language =
      match (candidates doc language).find?
          (fun c => c.language_match) with
      | some c => some c.url
      | none => (candidates doc language).head?.map DownloadCandidate.url := by
  unfold get_transcript_options
  cases h : candidates doc language with
  | nil => simp
  | cons c0 rest =>
    rw [firstLanguageMatch_eq_find]
    cases hf : (c0 :: rest).find? (fun c => c.language_match) with
    | some c => simp
    | none => simp

/-- C4: _convert_srt_to_text keeps exactly the content lines (those that are
not blank, not a bare digit sequence, not an SRT time-range line and not a
WEBVTT header line), strips each of surrounding whitespace, and joins them
with single spaces in their original order. -/
theorem C4_srt_normalization (srt_content : String) :
    convert_srt_to_text srt_content =
      " ".intercalate
        ((((splitChar '\n' srt_content.toList).map String.mk).filter
          keepLine).map pyStrip) := by
  unfold convert_srt_to_text
  rw [convert_srt_lines_eq]

/-- C6: every candidate produced by any discovery tier has language_match
set exactly when the lower-cased preferred-language code occurs as a
substring of the candidate's stored display text (the stripped, lower-cased
visible text of the source element). -/
theorem C6_language_match (doc : HtmlDoc) (language : String)
    (c : DownloadCandidate) (hc : c ∈ candidates doc language) :
    c.language_match = pyContains c.text (pyLower language) := by
  rcases mem_candidates_cases hc with h | h | h
  · exact tier1_language_match h
  · exact tier2_language_match h
  · exact tier3_language_match h

/-- Witness for C6 on the crafted single-anchor document of the spec's
end-to-end scenario. -/
theorem C6_witness :
    (⟨"https://downsub.com/download?f=en.srt", "download srt (en)", true⟩ :
        DownloadCandidate) ∈
      candidates ⟨[⟨some "/download?f=en.srt", "Download SRT (en)"⟩], []⟩
        "en" ∧
    (⟨"https://downsub.com/download?f=en.srt", "download srt (en)", true⟩ :
        DownloadCandidate).language_match =
      pyContains "download srt (en)" (pyLower "en") :=
  ⟨by decide,
   C6_language_match ⟨[⟨some "/download?f=en.srt", "Download SRT (en)"⟩], []⟩
     "en" ⟨"https://downsub.com/download?f=en.srt", "download srt (en)", true⟩
     (by decide)⟩

/-- C8 part of the pipeline: get_youtube_transcript_direct returns the known
placeholder verbatim for the identifier dQw4w9WgXcQ, and for every
identifier outside the finite table it returns the generic
could-not-be-retrieved text embedding the identifier. -/
theorem C8_placeholder_table :
    get_youtube_transcript_direct "dQw4w9WgXcQ" =
      ("This is a sample transcript for Rick Astley\x27s \x27Never Gonna " ++
        "Give You Up\x27. The actual lyrics are not included to avoid " ++
        "copyright issues.") ∧
    ∀ video_id : String,
      video_id ≠ "dQw4w9WgXcQ" → video_id ≠ "yGSmg45roPo" →
      get_youtube_transcript_direct video_id =
        "This is a sample transcript for video " ++ video_id ++
          ". The actual transcript could not be downloaded. DownSub requires " ++
          "JavaScript to function properly, which our script cannot execute. " ++
          "To get the actual transcript, you would need to use a headless " ++
          "browser like Selenium or Playwright that can execute JavaScript." := by
  constructor
  · rfl
  · intro video_id h1 h2
    unfold get_youtube_transcript_direct known_transcripts
    rw [if_neg (by simpa using h1), if_neg (by simpa using h2)]

/-- Witness for C8 at an identifier outside the table. -/
theorem C8_witness :
    get_youtube_transcript_direct "abc" =
      "This is a sample transcript for video " ++ "abc" ++
        ". The actual transcript could not be downloaded. DownSub requires " ++
        "JavaScript to function properly, which our script cannot execute. " ++
        "To get the actual transcript, you would need to use a headless " ++
        "browser like Selenium or Playwright that can execute JavaScript." :=
  C8_placeholder_table.2 "abc" (by decide) (by decide)

/-- C5 fails as stated: the code decides the timed-caption conversion by
searching for WEBVTT anywhere in the first 100 characters, not by testing
that the content begins with the marker.  The content below does not begin
with WEBVTT and the URL declares no caption extension, yet conversion runs
and drops a whole line, beyond whitespace trimming and joining. -/
theorem C5_counterexample :
    pyStartsWith "a\nWEBVTT b" "WEBVTT" = false ∧
    pyEndsWith "https://downsub.com/x" ".srt" = false ∧
    download_transcript_body "https://downsub.com/x" "a\nWEBVTT b" = "a" ∧
    ("a" == "a\nWEBVTT b") = false ∧
    " ".intercalate
        (((splitChar '\n' ("a\nWEBVTT b").toList).map String.mk).map
          pyStrip) = "a WEBVTT b" ∧
    ("a" == "a WEBVTT b") = false := by
  decide

/-- C5 amended: download_transcript passes the body through completely
unchanged exactly when the URL does not end in .srt and WEBVTT does not
occur in the first 100 characters of the content; otherwise it applies the
timed-caption conversion. -/
theorem C5_amended (transcript_url content : String) :
    (pyEndsWith transcript_url ".srt" = false →
      pyContains (pyTake 100 content) "WEBVTT" = false →
      download_transcript_body transcript_url content = content) ∧
    (pyEndsWith transcript_url ".srt" = true ∨
        pyContains (pyTake 100 content) "WEBVTT" = true →
      download_transcript_body transcript_url content =
        convert_srt_to_text content) := by
  unfold download_transcript_body
  constructor
  · intro h1 h2
    rw [if_neg (by simp [h1, h2])]
  · intro h
    rcases h with h | h
    · rw [if_pos (by simp [h])]
    · rw [if_pos (by simp [h])]

/-- Witness for C5 at an already-plain body. -/
theorem C5_witness :
    pyEndsWith "https://downsub.com/page" ".srt" = false ∧
    pyContains (pyTake 100 "plain text") "WEBVTT" = false ∧
    download_transcript_body "https://downsub.com/page" "plain text" =
      "plain text" :=
  ⟨by decide, by decide,
   (C5_amended "https://downsub.com/page" "plain text").1
     (by decide) (by decide)⟩

theorem str_length_append (s t : String) :
    (s ++ t).length = s.length + t.length :=
  List.length_append _ _

theorem direct_ne_empty (v : String) :
    get_youtube_transcript_direct v ≠ "" := by
  unfold get_youtube_transcript_direct
  cases hk : known_transcripts v with
  | some t =>
    show t ≠ ""
    unfold known_transcripts at hk
    split at hk
    · have hlit := Option.some_inj.mp hk
      subst hlit
      decide
    · split at hk
      · have hlit := Option.some_inj.mp hk
        subst hlit
        decide
      · cases hk
  | none =>
    intro hcontra
    have hlen := congrArg String.length hcontra
    rw [str_length_append, str_length_append, str_length_append,
      str_length_append, str_length_append] at hlen
    rw [show ("" : String).length = 0 from rfl] at hlen
    have h0 : 0 < ("This is a sample transcript for video " : String).length :=
      by decide
    omega

/-- C9 fails as stated on the inline resolver: for a short-path URL carrying
a trailing query, the url_processor resolver strips the query but the inline
resolver inside get_transcript returns the last slash-separated segment with
the query still attached, so the two implementations disagree and the inline
one does not strip trailing query fragments. -/
theorem C9_counterexample :
    extract_video_id "https://youtu.be/abc?t=1" = some "abc" ∧
    rawVideoId "https://youtu.be/abc?t=1" = some "abc?t=1" ∧
    ("abc?t=1" == "abc") = false := by
  decide

/-- C9 amended: for short-path URLs over the benign identifier alphabet the
url_processor resolver returns the identifier with separators and query
stripped, while the inline resolver returns everything after the last slash
(keeping any query); for query-parameter URLs both return the v value; for
URLs containing neither host marker both fail with none. -/
theorem C9_amended :
    (∀ id : String, id.toList.all idChar = true →
      extract_video_id ("https://youtu.be/" ++ id) = some id ∧
      rawVideoId ("https://youtu.be/" ++ id) = some id) ∧
    (∀ id q : String, id.toList.all idChar = true →
      q.toList.all qChar = true →
      extract_video_id ("https://youtu.be/" ++ id ++ "?" ++ q) = some id ∧
      rawVideoId ("https://youtu.be/" ++ id ++ "?" ++ q) =
        some (id ++ "?" ++ q)) ∧
    (∀ id : String, id ≠ "" → id.toList.all idChar = true →
      pyContains ("https://www.youtube.com/watch?v=" ++ id) "youtu.be" =
        false →
      extract_video_id ("https://www.youtube.com/watch?v=" ++ id) =
        some id ∧
      rawVideoId ("https://www.youtube.com/watch?v=" ++ id) = some id) ∧
    (∀ url : String, pyContains url "youtu.be" = false →
      pyContains url "youtube.com" = false →
      extract_video_id url = none ∧ rawVideoId url = none) :=
  ⟨fun id h => ⟨extract_yt_short id h, raw_yt_short id h⟩,
   fun id q hi hq =>
     ⟨extract_yt_short_q id q hi hq, raw_yt_short_q id q hi hq⟩,
   fun id hne h hyb =>
     ⟨extract_watch_form id hne h hyb, raw_watch_form id hne h hyb⟩,
   fun url h1 h2 =>
     ⟨by
        unfold extract_video_id
        rw [h1, if_neg (by simp), h2, if_neg (by simp)],
      by
        unfold rawVideoId
        rw [h1, if_neg (by simp), h2, if_neg (by simp)]⟩⟩

/-- Witness for C9 at concrete URLs of every recognized shape. -/
theorem C9_witness :
    (extract_video_id ("https://youtu.be/" ++ "abc") = some "abc" ∧
     rawVideoId ("https://youtu.be/" ++ "abc") = some "abc") ∧
    (extract_video_id ("https://youtu.be/" ++ "abc" ++ "?" ++ "t=1") =
        some "abc" ∧
     rawVideoId ("https://youtu.be/" ++ "abc" ++ "?" ++ "t=1") =
        some ("abc" ++ "?" ++ "t=1")) ∧
    (extract_video_id ("https://www.youtube.com/watch?v=" ++ "dQw4w9WgXcQ") =
        some "dQw4w9WgXcQ" ∧
     rawVideoId ("https://www.youtube.com/watch?v=" ++ "dQw4w9WgXcQ") =
        some "dQw4w9WgXcQ") ∧
    (extract_video_id "https://example.com/v" = none ∧
     rawVideoId "https://example.com/v" = none) :=
  ⟨C9_amended.1 "abc" (by decide),
   C9_amended.2.1 "abc" "t=1" (by decide) (by decide),
   C9_amended.2.2.1 "dQw4w9WgXcQ" (by decide) (by decide) (by decide),
   C9_amended.2.2.2 "https://example.com/v" (by decide) (by decide)⟩

/-- C10 fails as stated: a protocol-relative href (schemeless, leading
double slash) is resolved by urljoin to an absolute URL on the href's own
host, which is neither under the base origin nor equal to the href. -/
theorem C10_counterexample :
    candidates ⟨[⟨some "//example.com/download.srt", "subtitle"⟩], []⟩
        "en" =
      [⟨"https://example.com/download.srt", "subtitle", false⟩] ∧
    splitSchemeAux ("//example.com/download.srt".toList) = none ∧
    isPrefList "https://downsub.com/".toList
      ("https://example.com/download.srt".toList) = false ∧
    ("https://example.com/download.srt" == "//example.com/download.srt") =
      false := by
  decide

/-- C10 amended: every candidate URL is a discovered href resolved against
BASE_URL by urljoin; a schemeless href that is not protocol-relative
resolves under the base origin, a protocol-relative href keeps its own
authority under the https scheme, an https absolute href and a
non-https-scheme href are preserved unchanged. -/
theorem C10_amended :
    (∀ (doc : HtmlDoc) (language : String) (c : DownloadCandidate),
      c ∈ candidates doc language →
      c.url ∈ ((doc.anchors.filterMap Anchor.href) ++
        (doc.clickables.filterMap Clickable.parentAnchorHref)).map
          urljoin_base) ∧
    (∀ href : String, splitSchemeAux href.toList = none →
      isPrefList ['/', '/'] href.toList = false → href ≠ "" →
      isPrefList "https://downsub.com/".toList
        (urljoin_base href).toList = true) ∧
    (∀ l : List Char, urljoin_base (String.mk ('/' :: '/' :: l)) =
      "https:" ++ String.mk ('/' :: '/' :: l)) ∧
    (∀ rest : String, urljoin_base ("https://" ++ rest) =
      "https://" ++ rest) ∧
    (∀ (url : String) (sch rest : List Char),
      splitSchemeAux url.toList = some (sch, rest) →
      (pyLower (String.mk sch) == "https") = false →
      urljoin_base url = url) := by
  refine ⟨?_, fun href h1 h2 h3 => urljoin_base_relative h1 h2 h3,
    urljoin_base_netpath, urljoin_base_https_abs,
    fun url sch rest hs hl => urljoin_base_other_scheme hs hl⟩
  intro doc language c hc
  rcases mem_candidates_cases hc with h | h | h
  · obtain ⟨a, ha, hfa⟩ := List.mem_filterMap.mp h
    have ha2 := (List.mem_filter.mp ha).1
    cases hhref : a.href with
    | none =>
      rw [hhref] at hfa
      exact absurd hfa (by simp)
    | some href =>
      rw [hhref] at hfa
      dsimp only at hfa
      split at hfa
      · have hurl : c.url = urljoin_base href := by
          rw [← Option.some_inj.mp hfa]
        rw [hurl]
        apply List.mem_map_of_mem
        apply List.mem_append_left
        exact List.mem_filterMap.mpr ⟨a, ha2, hhref⟩
      · exact absurd hfa (by simp)
  · obtain ⟨b, hb, hfb⟩ := List.mem_filterMap.mp h
    dsimp only at hfb
    split at hfb
    · cases hhref : b.parentAnchorHref with
      | none =>
        rw [hhref] at hfb
        exact absurd hfb (by simp)
      | some href =>
        rw [hhref] at hfb
        have hurl : c.url = urljoin_base href := by
          rw [← Option.some_inj.mp hfb]
        rw [hurl]
        apply List.mem_map_of_mem
        apply List.mem_append_right
        exact List.mem_filterMap.mpr ⟨b, hb, hhref⟩
    · exact absurd hfb (by simp)
  · obtain ⟨a, ha, hfa⟩ := List.mem_filterMap.mp h
    cases hhref : a.href with
    | none =>
      rw [hhref] at hfa
      exact absurd hfa (by simp)
    | some href =>
      rw [hhref] at hfa
      dsimp only at hfa
      split at hfa
      · have hurl : c.url = urljoin_base href := by
          rw [← Option.some_inj.mp hfa]
        rw [hurl]
        apply List.mem_map_of_mem
        apply List.mem_append_left
        exact List.mem_filterMap.mpr ⟨a, ha, hhref⟩
      · exact absurd hfa (by simp)

/-- Witness for C10: a root-relative href resolves under the base origin
and appears among the urljoin images of the document's hrefs; an absolute
https href is preserved. -/
theorem C10_witness :
    "https://downsub.com/download.srt" ∈
      ((([⟨some "/download.srt", "subtitle"⟩] : List Anchor).filterMap
          Anchor.href) ++
        (([] : List Clickable).filterMap
          Clickable.parentAnchorHref)).map urljoin_base ∧
    isPrefList "https://downsub.com/".toList
      (urljoin_base "/download.srt").toList = true ∧
    urljoin_base ("https://" ++ "x.com/a.srt") =
      "https://" ++ "x.com/a.srt" :=
  ⟨C10_amended.1 ⟨[⟨some "/download.srt", "subtitle"⟩], []⟩ "en"
     ⟨"https://downsub.com/download.srt", "subtitle", false⟩ (by decide),
   C10_amended.2.1 "/download.srt" (by decide) (by decide) (by decide),
   C10_amended.2.2.2.1 "x.com/a.srt"⟩

/-- C1: get_transcript returns none exactly when no usable video identifier
can be extracted from the URL, for every network environment, including the
one where every network operation fails; whenever an identifier is
extracted, the placeholder tier guarantees a non-none result. -/
theorem C1_none_iff_unresolvable (env : NetEnv)
    (youtube_url language : String) :
    get_transcript env youtube_url language = none ↔
      resolvedId youtube_url = none := by
  unfold get_transcript resolvedId
  cases hv : rawVideoId youtube_url with
  | none => simp
  | some v =>
    dsimp only
    cases he : (v == "") with
    | true => simp [he]
    | false =>
      rw [if_neg (by simp [he]), if_neg (by simp [he])]
      cases hs : scrape_attempt env language with
      | none => simp
      | some t =>
        dsimp only
        cases ht : (t == "") with
        | true => simp [ht]
        | false => simp [ht]

/-- C7: every successful get_transcript result carries non-empty text, and
an empty normalization output from the scrape chain is treated as failure,
with the pipeline advancing to the direct placeholder strategy. -/
theorem C7_text_nonempty_on_success :
    (∀ (env : NetEnv) (youtube_url language t : String),
      get_transcript env youtube_url language = some t → t ≠ "") ∧
    (∀ (env : NetEnv) (youtube_url language v : String),
      resolvedId youtube_url = some v →
      scrape_attempt env language = some "" →
      get_transcript env youtube_url language =
        some (get_youtube_transcript_direct v)) := by
  constructor
  · intro env url lang t hsome
    unfold get_transcript at hsome
    cases hv : rawVideoId url with
    | none =>
      rw [hv] at hsome
      simp at hsome
    | some v =>
      rw [hv] at hsome
      dsimp only at hsome
      cases he : (v == "") with
      | true =>
        rw [if_pos he] at hsome
        simp at hsome
      | false =>
        rw [if_neg (by simp [he])] at hsome
        cases hs : scrape_attempt env lang with
        | none =>
          rw [hs] at hsome
          dsimp only at hsome
          rw [← Option.some_inj.mp hsome]
          exact direct_ne_empty v
        | some t2 =>
          rw [hs] at hsome
          dsimp only at hsome
          cases ht : (t2 == "") with
          | true =>
            rw [if_pos ht] at hsome
            rw [← Option.some_inj.mp hsome]
            exact direct_ne_empty v
          | false =>
            rw [if_neg (by simp [ht])] at hsome
            rw [← Option.some_inj.mp hsome]
            intro h0
            rw [h0] at ht
            simp at ht
  · intro env url lang v hres hscrape
    unfold resolvedId at hres
    cases hv : rawVideoId url with
    | none =>
      rw [hv] at hres
      simp at hres
    | some w =>
      rw [hv] at hres
      dsimp only at hres
      cases he : (w == "") with
      | true =>
        rw [if_pos he] at hres
        simp at hres
      | false =>
        rw [if_neg (by simp [he])] at hres
        have hwv : w = v := Option.some_inj.mp hres
        subst hwv
        unfold get_transcript
        rw [hv]
        dsimp only
        rw [if_neg (by simp [he]), hscrape]
        dsimp only
        rw [if_pos (by decide)]

set_option maxRecDepth 8192 in
/-- Witness for C7: the empty-body environment falls through to the
placeholder result, and the all-fail environment yields a result whose text
is non-empty. -/
theorem C7_witness :
    get_transcript emptyBodyEnv "https://youtu.be/abc" "en" =
      some (get_youtube_transcript_direct "abc") ∧
    get_transcript failEnv "https://youtu.be/xyz" "en" =
      some (get_youtube_transcript_direct "xyz") ∧
    get_youtube_transcript_direct "xyz" ≠ "" :=
  ⟨C7_text_nonempty_on_success.2 emptyBodyEnv "https://youtu.be/abc" "en"
     "abc" (by decide) (by decide),
   by decide,
   C7_text_nonempty_on_success.1 failEnv "https://youtu.be/xyz" "en"
     (get_youtube_transcript_direct "xyz") (by decide)⟩

end YoutubeSummarizer
